import Mathlib

/-!
Shallow embedding of the KeyEnv Node SDK client (src/client.ts) and proofs
about its externally observable behavior: response-envelope unwrapping, the
export cache, mutation-driven invalidation, the setSecret upsert, .env file
generation, the request pipeline's error normalization, request-body
serialization, and the exportSecretsAsObject view.

Network effects are made explicit: every operation takes the outcome of its
underlying request (the parsed response body on success, or the typed error)
as an argument, and returns its result together with the updated client
state and the number of network calls it issued.  Time is a parameter in
milliseconds, mirroring Date.now().
-/

/-- Error details map, modelling the TS Record of string to unknown carried
on API errors (src/types.ts).  Values are kept as strings; the client never
inspects them. -/
abbrev ErrorDetails := List (String × String)

/-- ApiError, the JSON error body shape (src/types.ts): required error
message, optional code and details. -/
structure ApiError where
  error : String
  code : Option String
  details : Option ErrorDetails
deriving DecidableEq, Repr

/-- KeyEnvError, the single typed error thrown at the client boundary
(src/types.ts): message, numeric status, optional code and details. -/
structure KeyEnvError where
  message : String
  status : Nat
  code : Option String
  details : Option ErrorDetails
deriving DecidableEq, Repr

/-- Secret metadata record, without a value (src/types.ts). -/
structure Secret where
  id : String
  environment_id : String
  key : String
  type : String
  description : Option String
  version : Nat
  created_at : String
  updated_at : String
deriving DecidableEq, Repr

/-- Secret together with its decrypted value (src/types.ts): Secret plus
value and optional inherited_from. -/
structure SecretWithValue where
  id : String
  environment_id : String
  key : String
  type : String
  description : Option String
  version : Nat
  created_at : String
  updated_at : String
  value : String
  inherited_from : Option String
deriving DecidableEq, Repr

/-- Environment permission role (src/types.ts): the four-element enum. -/
inductive EnvironmentRole where
  | none
  | read
  | write
  | admin
deriving DecidableEq, Repr

/-- Wire string for a role; in TS the role already is one of these string
literals. -/
def roleToWire : EnvironmentRole → String
  | .none => "none"
  | .read => "read"
  | .write => "write"
  | .admin => "admin"

/-- Lookup in a JS Map or plain object keyed by strings, modelled as an
association list read front to back (Map keys are unique, so first match is
the entry). -/
def mapGet {α : Type} : List (String × α) → String → Option α
  | [], _ => Option.none
  | kv :: rest, k => if kv.1 = k then some kv.2 else mapGet rest k

/-- Map.set: replace the value of an existing key in place, or append a new
entry at the end (JS Map insertion order). -/
def mapSet {α : Type} : List (String × α) → String → α → List (String × α)
  | [], k, v => [(k, v)]
  | kv :: rest, k, v => if kv.1 = k then (k, v) :: rest else kv :: mapSet rest k v

/-- Map.delete: remove the entry with the given key. -/
def mapDelete {α : Type} : List (String × α) → String → List (String × α)
  | [], _ => []
  | kv :: rest, k => if kv.1 = k then mapDelete rest k else kv :: mapDelete rest k

/-- Boolean prefix test on char lists, used to model JS String.startsWith. -/
def listIsPrefix : List Char → List Char → Bool
  | [], _ => true
  | _ :: _, [] => false
  | a :: as, b :: bs => if a = b then listIsPrefix as bs else false

/-- JS String.prototype.startsWith(pre), modelled on the underlying
character sequences. -/
def strStartsWith (s pre : String) : Bool := listIsPrefix pre.data s.data

/-- getCacheKey (client.ts line 317): the cache key is the project id and
environment name joined with a colon. -/
def getCacheKey (projectId environment : String) : String :=
  projectId ++ ":" ++ environment

/-- One entry of the secrets cache (client.ts line 339): the exported list
and its absolute expiry time in ms. -/
structure CacheEntry where
  secrets : List SecretWithValue
  expiresAt : Int
deriving DecidableEq, Repr

/-- The secretsCache Map of the client. -/
abbrev Cache := List (String × CacheEntry)

/-- The mutable client state the claims are about: the configured cacheTtl
in seconds and the secretsCache (client.ts lines 338-339).  Token, baseUrl
and timeout do not affect any claim and are omitted. -/
structure ClientState where
  cacheTtl : Int
  secretsCache : Cache
deriving DecidableEq, Repr

/-- JS truthiness of an optional string argument: absent and empty strings
are falsy. -/
def truthy : Option String → Bool
  | Option.none => false
  | some s => if s = "" then false else true

/-- clearCache (client.ts lines 643-656): with both arguments truthy delete
that pair's key; with only a truthy projectId delete every key starting
with the project id and a colon; otherwise clear the whole cache. -/
def clearCacheImpl (cache : Cache) (projectId environment : Option String) : Cache :=
  if truthy projectId && truthy environment then
    mapDelete cache (getCacheKey (projectId.getD "") (environment.getD ""))
  else if truthy projectId then
    cache.filter (fun kv => !(strStartsWith kv.1 (projectId.getD "" ++ ":")))
  else
    []

/-! ## Request pipeline (client.ts lines 354-396) -/

/-- The HTTP response seen by request: the ok flag and status of fetch, the
protocol status text, the result of attempting to parse the body as a JSON
ApiError object (none when parsing throws), and the parsed success body. -/
structure HttpResponse (β : Type) where
  ok : Bool
  status : Nat
  statusText : String
  jsonAsError : Option ApiError
  body : β
deriving Repr

/-- The three ways the underlying fetch can resolve: an HTTP response, an
AbortError fired by the timeout, or any other transport failure carrying a
message. -/
inductive FetchOutcome (β : Type) where
  | response (r : HttpResponse β)
  | abort
  | failure (msg : String)
deriving Repr

/-- request (client.ts lines 354-396).  On a non-ok status it throws a
KeyEnvError built from the parsed error body, falling back to the status
text when the body does not parse; an ok 204 resolves to no value; any
other ok status resolves to the parsed body; an AbortError becomes status
408 with message Request timeout; any other failure becomes status 0 with
the underlying message. -/
def request {β : Type} (f : FetchOutcome β) : Except KeyEnvError (Option β) :=
  match f with
  | .response r =>
    if !r.ok then
      let errorData : ApiError :=
        match r.jsonAsError with
        | some e => e
        | Option.none => { error := r.statusText, code := Option.none, details := Option.none }
      .error { message := errorData.error, status := r.status,
               code := errorData.code, details := errorData.details }
    else if r.status = 204 then
      .ok Option.none
    else
      .ok (some r.body)
  | .abort =>
    .error { message := "Request timeout", status := 408,
             code := Option.none, details := Option.none }
  | .failure msg =>
    .error { message := msg, status := 0, code := Option.none, details := Option.none }

/-! ## Response-envelope unwrapping (client.ts lines 473-501, 571-576, 757-759)

A parsed JSON response body is modelled as an association list from field
names to payloads, so that which field an operation reads is explicit. -/

/-- The unwrap step of exportSecrets: the method reads response.data
(client.ts lines 488-500). -/
def exportSecretsEnvelope {α : Type} (body : List (String × α)) : Option α :=
  mapGet body "data"

/-- The unwrap step of getSecretHistory: the method reads response.data
(client.ts lines 571-576). -/
def getSecretHistoryEnvelope {α : Type} (body : List (String × α)) : Option α :=
  mapGet body "data"

/-- getMyPermissions (client.ts lines 757-759) returns the response body
unchanged: the top-level object carries permissions and is_team_admin. -/
def getMyPermissionsEnvelope {α : Type} (body : α) : α := body

/-! ## exportSecrets with the export cache (client.ts lines 473-501) -/

/-- Result of one exportSecrets call: the value or error returned, the
client state afterwards, and whether a network request was issued. -/
structure ExportResult where
  result : Except KeyEnvError (List SecretWithValue)
  state : ClientState
  networkUsed : Bool
deriving Repr

/-- exportSecrets (client.ts lines 473-501).  tCheck is Date.now() at the
cache check (line 479) and tStore is Date.now() at the store (line 496);
fetch is the unwrapped response.data of the network request, or its error.
With cacheTtl positive: an entry whose expiresAt is strictly in the future
is returned without a network call; an existing expired entry is deleted;
after a successful fetch the list is stored with expiry tStore plus
cacheTtl seconds (cacheTtl * 1000 ms).  With cacheTtl non-positive the
cache is neither read nor written. -/
def exportSecrets (st : ClientState) (projectId environment : String)
    (tCheck tStore : Int) (fetch : Except KeyEnvError (List SecretWithValue)) :
    ExportResult :=
  let cacheKey := getCacheKey projectId environment
  let hit : Option (List SecretWithValue) :=
    if st.cacheTtl > 0 then
      match mapGet st.secretsCache cacheKey with
      | some cached => if tCheck < cached.expiresAt then some cached.secrets else Option.none
      | Option.none => Option.none
    else Option.none
  match hit with
  | some secrets => ⟨.ok secrets, st, false⟩
  | Option.none =>
    let st1 : ClientState :=
      if st.cacheTtl > 0 then
        match mapGet st.secretsCache cacheKey with
        | some _ => { st with secretsCache := mapDelete st.secretsCache cacheKey }
        | Option.none => st
      else st
    match fetch with
    | .error e => ⟨.error e, st1, true⟩
    | .ok data =>
      if st.cacheTtl > 0 then
        let entry : CacheEntry := ⟨data, tStore + st.cacheTtl * 1000⟩
        ⟨.ok data, { st1 with secretsCache := mapSet st1.secretsCache cacheKey entry }, true⟩
      else ⟨.ok data, st1, true⟩

/-! ## Mutating secret operations (client.ts lines 524-597)

Each operation issues its request, and after a successful response calls
this.clearCache(projectId, environment); a thrown error propagates before
the cache is touched. -/

/-- createSecret (client.ts lines 525-534). -/
def createSecret (st : ClientState) (projectId environment : String)
    (outcome : Except KeyEnvError Secret) : Except KeyEnvError Secret × ClientState :=
  match outcome with
  | .error e => (.error e, st)
  | .ok s =>
    (.ok s, { st with secretsCache := clearCacheImpl st.secretsCache (some projectId) (some environment) })

/-- updateSecret (client.ts lines 537-546). -/
def updateSecret (st : ClientState) (projectId environment : String)
    (outcome : Except KeyEnvError Secret) : Except KeyEnvError Secret × ClientState :=
  match outcome with
  | .error e => (.error e, st)
  | .ok s =>
    (.ok s, { st with secretsCache := clearCacheImpl st.secretsCache (some projectId) (some environment) })

/-- deleteSecret (client.ts lines 563-568). -/
def deleteSecret (st : ClientState) (projectId environment : String)
    (outcome : Except KeyEnvError Unit) : Except KeyEnvError Unit × ClientState :=
  match outcome with
  | .error e => (.error e, st)
  | .ok _ =>
    (.ok (), { st with secretsCache := clearCacheImpl st.secretsCache (some projectId) (some environment) })

/-- Bulk import counts (src/types.ts BulkImportResult). -/
structure BulkImportResult where
  created : Nat
  updated : Nat
  skipped : Nat
deriving DecidableEq, Repr

/-- bulkImport (client.ts lines 588-597). -/
def bulkImport (st : ClientState) (projectId environment : String)
    (outcome : Except KeyEnvError BulkImportResult) :
    Except KeyEnvError BulkImportResult × ClientState :=
  match outcome with
  | .error e => (.error e, st)
  | .ok r =>
    (.ok r, { st with secretsCache := clearCacheImpl st.secretsCache (some projectId) (some environment) })

/-- setSecret (client.ts lines 549-560): try updateSecret; if it throws a
KeyEnvError with status 404, fall back to createSecret; rethrow anything
else.  The third component counts network calls issued. -/
def setSecret (st : ClientState) (projectId environment : String)
    (updateOutcome createOutcome : Except KeyEnvError Secret) :
    Except KeyEnvError Secret × ClientState × Nat :=
  match updateSecret st projectId environment updateOutcome with
  | (.ok s, st1) => (.ok s, st1, 1)
  | (.error err, st1) =>
    if err.status = 404 then
      let r := createSecret st1 projectId environment createOutcome
      (r.1, r.2, 2)
    else
      (.error err, st1, 1)

/-! ## generateEnvFile (client.ts lines 616-636) -/

/-- The single-quote character, spelled by code point. -/
def squoteChar : Char := Char.ofNat 39

/-- The backslash character. -/
def backslashChar : Char := Char.ofNat 92

/-- Concatenation of a list of strings in order. -/
def concatStrings : List String → String
  | [] => ""
  | s :: rest => s ++ concatStrings rest

/-- Global single-character regex replacement, modelling
value.replace(/c/g, r): every occurrence of the character is replaced by
the string r in one left-to-right pass. -/
def replaceAllChar (s : String) (c : Char) (r : String) : String :=
  concatStrings (s.data.map (fun ch => if ch = c then r else String.singleton ch))

/-- The quoting condition of generateEnvFile (client.ts line 627): the
value contains a newline, double quote, single quote, space or dollar
sign. -/
def needsQuoting (v : String) : Bool :=
  v.data.any (fun c =>
    c = '\n' || c = '"' || c = squoteChar || c = ' ' || c = '$')

/-- The escape chain of generateEnvFile (client.ts line 628): double
backslashes, then escape double quotes, then newlines, then dollars, each
by a global replace. -/
def escapeEnvValue (v : String) : String :=
  replaceAllChar
    (replaceAllChar
      (replaceAllChar
        (replaceAllChar v backslashChar "\\\\")
        '"' "\\\"")
      '\n' "\\n")
    '$' "\\$"

/-- One emitted line per secret (client.ts lines 625-633). -/
def envFileLine (s : SecretWithValue) : String :=
  if needsQuoting s.value then
    s.key ++ "=\"" ++ escapeEnvValue s.value ++ "\""
  else
    s.key ++ "=" ++ s.value

/-- generateEnvFile (client.ts lines 616-636): three comment header lines
and a blank line, one line per exported secret, joined with newlines and
followed by a final newline.  The generation timestamp is a parameter. -/
def generateEnvFile (environment timestamp : String)
    (secrets : List SecretWithValue) : String :=
  String.intercalate "\n"
    (["# Generated by KeyEnv",
      "# Environment: " ++ environment,
      "# Generated at: " ++ timestamp,
      ""] ++ secrets.map envFileLine) ++ "\n"

/-! ## Request bodies of bulkSetPermissions and setProjectDefaults
(client.ts lines 735-743 and 793-801) -/

/-- Caller-facing item accepted by bulkSetPermissions. -/
structure PermissionInput where
  userId : String
  role : EnvironmentRole
deriving DecidableEq, Repr

/-- Caller-facing item accepted by setProjectDefaults. -/
structure ProjectDefaultInput where
  environmentName : String
  defaultRole : EnvironmentRole
deriving DecidableEq, Repr

/-- A serialized JSON object, as ordered fields of name and string value. -/
abbrev WireObject := List (String × String)

/-- The permissions array of the bulkSetPermissions request body (client.ts
line 740): each item is serialized as user_id and role. -/
def bulkSetPermissionsBodyItems (permissions : List PermissionInput) : List WireObject :=
  permissions.map (fun p => [("user_id", p.userId), ("role", roleToWire p.role)])

/-- The defaults array of the setProjectDefaults request body (client.ts
line 798): each item is serialized as environment_name and default_role. -/
def setProjectDefaultsBodyItems (defaults : List ProjectDefaultInput) : List WireObject :=
  defaults.map (fun d =>
    [("environment_name", d.environmentName), ("default_role", roleToWire d.defaultRole)])

/-! ## exportSecretsAsObject (client.ts lines 511-514) -/

/-- Object.fromEntries: build an object from key-value pairs in order, a
later pair with the same key overwriting the earlier one. -/
def objectFromEntries (entries : List (String × String)) : WireObject :=
  entries.foldl (fun acc kv => mapSet acc kv.1 kv.2) []

/-- exportSecretsAsObject (client.ts lines 511-514): the object built from
the export list mapped to key-value pairs. -/
def exportSecretsAsObject (secrets : List SecretWithValue) : WireObject :=
  objectFromEntries (secrets.map (fun s => (s.key, s.value)))

/-! ## Operations that never touch the export cache (client.ts lines
428-430, 450-452, 695-703, 715-719, 735-743, 793-801) -/

/-- Environment permission record (src/types.ts). -/
structure EnvironmentPermission where
  id : String
  environment_id : String
  user_id : String
  role : EnvironmentRole
  user_email : Option String
  user_name : Option String
  granted_by : Option String
  created_at : String
  updated_at : String
deriving DecidableEq, Repr

/-- Project default permission record (src/types.ts). -/
structure ProjectDefault where
  id : String
  project_id : String
  environment_name : String
  default_role : EnvironmentRole
  created_at : String
deriving DecidableEq, Repr

/-- deleteProject (client.ts lines 428-430): one DELETE request, no cache
access. -/
def deleteProject (st : ClientState) (_projectId : String)
    (outcome : Except KeyEnvError Unit) : Except KeyEnvError Unit × ClientState :=
  (outcome, st)

/-- deleteEnvironment (client.ts lines 450-452): one DELETE request, no
cache access. -/
def deleteEnvironment (st : ClientState) (_projectId _environment : String)
    (outcome : Except KeyEnvError Unit) : Except KeyEnvError Unit × ClientState :=
  (outcome, st)

/-- setPermission (client.ts lines 695-703): one PUT request, no cache
access. -/
def setPermission (st : ClientState) (_projectId _environment _userId : String)
    (_role : EnvironmentRole) (outcome : Except KeyEnvError EnvironmentPermission) :
    Except KeyEnvError EnvironmentPermission × ClientState :=
  (outcome, st)

/-- deletePermission (client.ts lines 715-719): one DELETE request, no
cache access. -/
def deletePermission (st : ClientState) (_projectId _environment _userId : String)
    (outcome : Except KeyEnvError Unit) : Except KeyEnvError Unit × ClientState :=
  (outcome, st)

/-- bulkSetPermissions (client.ts lines 735-743): one PUT request carrying
the serialized permissions body, no cache access. -/
def bulkSetPermissions (st : ClientState) (_projectId _environment : String)
    (_permissions : List PermissionInput)
    (outcome : Except KeyEnvError (List EnvironmentPermission)) :
    Except KeyEnvError (List EnvironmentPermission) × ClientState :=
  (outcome, st)

/-- setProjectDefaults (client.ts lines 793-801): one PUT request carrying
the serialized defaults body, no cache access. -/
def setProjectDefaults (st : ClientState) (_projectId : String)
    (_defaults : List ProjectDefaultInput)
    (outcome : Except KeyEnvError (List ProjectDefault)) :
    Except KeyEnvError (List ProjectDefault) × ClientState :=
  (outcome, st)

/-! ## Specification-side definitions used to state properties -/

/-- Single-pass escape of one character, the specification of the escape
chain: backslashes doubled, double quotes, newlines and dollar signs
escaped, everything else kept. -/
def escChar (c : Char) : String :=
  if c = backslashChar then "\\\\"
  else if c = '"' then "\\\""
  else if c = '\n' then "\\n"
  else if c = '$' then "\\$"
  else String.singleton c

/-- Value of the last pair with the given key, the specification of the
last-occurrence-wins behavior of Object.fromEntries. -/
def lastOccurrence : List (String × String) → String → Option String
  | [], _ => Option.none
  | kv :: rest, k =>
    match lastOccurrence rest k with
    | some v => some v
    | Option.none => if kv.1 = k then some kv.2 else Option.none

example : getCacheKey "a:b" "c" = "a:b:c" := by decide
example : getCacheKey "a" "b:c" = "a:b:c" := by decide
example : mapGet (mapSet [] "k" (1 : Nat)) "k" = some 1 := by decide
example : needsQuoting "price=$100" = true := by decide
example : escapeEnvValue "price=$100" = "price=\\$100" := by decide
example : needsQuoting "no_special" = false := by decide
example : escapeEnvValue "say \"hi\"" = "say \\\"hi\\\"" := by decide

/-! ## Helper lemmas on the map model -/

theorem mapGet_mapSet {α : Type} (m : List (String × α)) (k k' : String) (v : α) :
    mapGet (mapSet m k v) k' = if k = k' then some v else mapGet m k' := by
  induction m with
  | nil => simp [mapSet, mapGet]
  | cons kv rest ih =>
    by_cases h1 : kv.1 = k
    · by_cases h2 : k = k'
      · simp [mapSet, mapGet, h1, h2]
      · have h3 : ¬ kv.1 = k' := fun hh => h2 (h1.symm.trans hh)
        simp [mapSet, mapGet, h1, h2, h3]
    · by_cases h2 : kv.1 = k'
      · have h3 : ¬ k = k' := fun hh => h1 (h2.trans hh.symm)
        have h4 : ¬ k' = k := fun hh => h3 hh.symm
        simp [mapSet, mapGet, h1, h2, h3, h4]
      · simp [mapSet, mapGet, h1, h2, ih]

theorem mapGet_mapDelete {α : Type} (m : List (String × α)) (k k' : String) :
    mapGet (mapDelete m k) k' = if k = k' then Option.none else mapGet m k' := by
  induction m with
  | nil => simp [mapDelete, mapGet]
  | cons kv rest ih =>
    by_cases h1 : kv.1 = k
    · by_cases h2 : k = k'
      · subst h2
        simp [mapDelete, mapGet, h1, ih]
      · have h3 : ¬ kv.1 = k' := fun hh => h2 (h1.symm.trans hh)
        simp [mapDelete, mapGet, h1, h2, h3, ih]
    · by_cases h2 : kv.1 = k'
      · have h3 : ¬ k = k' := fun hh => h1 (h2.trans hh.symm)
        have h4 : ¬ k' = k := fun hh => h3 hh.symm
        simp [mapDelete, mapGet, h1, h2, h3, h4, ih]
      · simp [mapDelete, mapGet, h1, h2, ih]

theorem mapGet_filter_not_starts {α : Type} (m : List (String × α)) (pre k : String) :
    mapGet (m.filter (fun kv => !(strStartsWith kv.1 pre))) k =
      if strStartsWith k pre then Option.none else mapGet m k := by
  induction m with
  | nil => simp [mapGet]
  | cons kv rest ih =>
    by_cases h1 : strStartsWith kv.1 pre
    · by_cases h2 : kv.1 = k
      · subst h2
        simp [mapGet, h1, ih]
      · simp [mapGet, h1, h2, ih]
    · by_cases h2 : kv.1 = k
      · subst h2
        simp [mapGet, h1]
      · simp [mapGet, h1, h2, ih]

theorem listIsPrefix_self (l : List Char) : listIsPrefix l l = true := by
  induction l with
  | nil => rfl
  | cons a as ih => simp [listIsPrefix, ih]

theorem getCacheKey_data (p e : String) :
    (getCacheKey p e).data = p.data ++ ':' :: e.data := by
  have h : (":" : String).data = [':'] := rfl
  show (p ++ ":" ++ e).data = p.data ++ ':' :: e.data
  rw [String.data_append, String.data_append, h, List.append_assoc]
  rfl

theorem strStartsWith_cacheKey_empty_env (p : String) :
    strStartsWith (getCacheKey p "") (p ++ ":") = true := by
  have h1 : (getCacheKey p "").data = p.data ++ [':'] := by
    rw [getCacheKey_data]
  have h2 : (p ++ ":").data = p.data ++ [':'] := by
    rw [String.data_append]
  rw [strStartsWith, h1, h2]
  exact listIsPrefix_self _

theorem clearCacheImpl_pair_none (cache : Cache) (p e : String) :
    mapGet (clearCacheImpl cache (some p) (some e)) (getCacheKey p e) = Option.none := by
  by_cases hp : p = ""
  · subst hp
    simp [clearCacheImpl, truthy, mapGet]
  · by_cases he : e = ""
    · subst he
      simp only [clearCacheImpl, truthy, Option.getD]
      simp only [hp, if_neg hp]
      simp [mapGet_filter_not_starts, strStartsWith_cacheKey_empty_env]
    · simp only [clearCacheImpl, truthy, Option.getD]
      simp [hp, he, mapGet_mapDelete]

theorem clearCacheImpl_both (cache : Cache) (p e k : String) (hp : p ≠ "") (he : e ≠ "") :
    mapGet (clearCacheImpl cache (some p) (some e)) k =
      if getCacheKey p e = k then Option.none else mapGet cache k := by
  simp only [clearCacheImpl, truthy, Option.getD]
  simp [hp, he, mapGet_mapDelete]

theorem clearCacheImpl_project (cache : Cache) (p k : String) (hp : p ≠ "") :
    mapGet (clearCacheImpl cache (some p) Option.none) k =
      if strStartsWith k (p ++ ":") then Option.none else mapGet cache k := by
  simp only [clearCacheImpl, truthy, Option.getD]
  simp [hp, mapGet_filter_not_starts]

theorem clearCacheImpl_all (cache : Cache) :
    clearCacheImpl cache Option.none Option.none = [] := by
  simp [clearCacheImpl, truthy]

theorem colon_append_inj (a1 : List Char) :
    ∀ (a2 b1 b2 : List Char), ':' ∉ a1 → ':' ∉ a2 →
      a1 ++ ':' :: b1 = a2 ++ ':' :: b2 → a1 = a2 ∧ b1 = b2 := by
  induction a1 with
  | nil =>
    intro a2 b1 b2 _ h2 h
    cases a2 with
    | nil => simpa using h
    | cons c cs =>
      exfalso
      have hc : c = ':' := by
        have := congrArg (fun l => l.head?) h
        simpa using this.symm
      exact h2 (hc ▸ List.mem_cons_self c cs)
  | cons d ds ih =>
    intro a2 b1 b2 h1 h2 h
    cases a2 with
    | nil =>
      exfalso
      have hd : d = ':' := by
        have := congrArg (fun l => l.head?) h
        simpa using this
      exact h1 (hd ▸ List.mem_cons_self d ds)
    | cons c cs =>
      have hdc : d = c := by
        have := congrArg (fun l => l.head?) h
        simpa using this
      have htail : ds ++ ':' :: b1 = cs ++ ':' :: b2 := by
        have := congrArg (fun l => l.tail) h
        simpa using this
      have h1' : ':' ∉ ds := fun hm => h1 (List.mem_cons_of_mem d hm)
      have h2' : ':' ∉ cs := fun hm => h2 (List.mem_cons_of_mem c hm)
      obtain ⟨he, hb⟩ := ih cs b1 b2 h1' h2' htail
      exact ⟨by rw [hdc, he], hb⟩

theorem getCacheKey_inj (p1 e1 p2 e2 : String)
    (h1 : ':' ∉ p1.data) (h2 : ':' ∉ p2.data)
    (hne : (p1, e1) ≠ (p2, e2)) : getCacheKey p1 e1 ≠ getCacheKey p2 e2 := by
  intro heq
  have hdata : p1.data ++ ':' :: e1.data = p2.data ++ ':' :: e2.data := by
    have := congrArg String.data heq
    rwa [getCacheKey_data, getCacheKey_data] at this
  obtain ⟨hp, he⟩ := colon_append_inj p1.data p2.data e1.data e2.data h1 h2 hdata
  exact hne (by rw [String.ext hp, String.ext he])

/-! ## Helper lemmas on exportSecrets -/

theorem exportSecrets_hit (st : ClientState) (p e : String) (tC tS : Int)
    (fetch : Except KeyEnvError (List SecretWithValue)) (entry : CacheEntry)
    (httl : st.cacheTtl > 0)
    (hget : mapGet st.secretsCache (getCacheKey p e) = some entry)
    (hfresh : tC < entry.expiresAt) :
    exportSecrets st p e tC tS fetch = ⟨.ok entry.secrets, st, false⟩ := by
  simp [exportSecrets, httl, hget, hfresh]

theorem exportSecrets_expired_error (st : ClientState) (p e : String) (tC tS : Int)
    (err : KeyEnvError) (entry : CacheEntry)
    (httl : st.cacheTtl > 0)
    (hget : mapGet st.secretsCache (getCacheKey p e) = some entry)
    (hstale : ¬ tC < entry.expiresAt) :
    exportSecrets st p e tC tS (.error err) =
      ⟨.error err,
       { st with secretsCache := mapDelete st.secretsCache (getCacheKey p e) }, true⟩ := by
  simp [exportSecrets, httl, hget, hstale]

theorem exportSecrets_expired_ok (st : ClientState) (p e : String) (tC tS : Int)
    (data : List SecretWithValue) (entry : CacheEntry)
    (httl : st.cacheTtl > 0)
    (hget : mapGet st.secretsCache (getCacheKey p e) = some entry)
    (hstale : ¬ tC < entry.expiresAt) :
    exportSecrets st p e tC tS (.ok data) =
      ⟨.ok data,
       { st with secretsCache := mapSet (mapDelete st.secretsCache (getCacheKey p e)) (getCacheKey p e) ⟨data, tS + st.cacheTtl * 1000⟩ },
       true⟩ := by
  simp [exportSecrets, httl, hget, hstale]

theorem exportSecrets_nokey_error (st : ClientState) (p e : String) (tC tS : Int)
    (err : KeyEnvError)
    (httl : st.cacheTtl > 0)
    (hget : mapGet st.secretsCache (getCacheKey p e) = Option.none) :
    exportSecrets st p e tC tS (.error err) = ⟨.error err, st, true⟩ := by
  simp [exportSecrets, httl, hget]

theorem exportSecrets_nokey_ok (st : ClientState) (p e : String) (tC tS : Int)
    (data : List SecretWithValue)
    (httl : st.cacheTtl > 0)
    (hget : mapGet st.secretsCache (getCacheKey p e) = Option.none) :
    exportSecrets st p e tC tS (.ok data) =
      ⟨.ok data,
       { st with secretsCache :=
           mapSet st.secretsCache (getCacheKey p e) ⟨data, tS + st.cacheTtl * 1000⟩ },
       true⟩ := by
  simp [exportSecrets, httl, hget]

theorem exportSecrets_noTtl (st : ClientState) (p e : String) (tC tS : Int)
    (fetch : Except KeyEnvError (List SecretWithValue))
    (httl : ¬ st.cacheTtl > 0) :
    exportSecrets st p e tC tS fetch = ⟨fetch, st, true⟩ := by
  cases fetch <;> simp [exportSecrets, httl]

/-! ## Helper lemmas on string replacement and escaping -/

theorem concatStrings_append (xs ys : List String) :
    concatStrings (xs ++ ys) = concatStrings xs ++ concatStrings ys := by
  induction xs with
  | nil => simp [concatStrings, String.empty_append]
  | cons s rest ih => simp [concatStrings, ih, String.append_assoc]

theorem replaceAllChar_append (a b : String) (c : Char) (r : String) :
    replaceAllChar (a ++ b) c r = replaceAllChar a c r ++ replaceAllChar b c r := by
  simp [replaceAllChar, String.data_append, concatStrings_append]

theorem replaceAllChar_concat_map (l : List Char) (f : Char → String) (c : Char) (r : String) :
    replaceAllChar (concatStrings (l.map f)) c r =
      concatStrings (l.map (fun ch => replaceAllChar (f ch) c r)) := by
  induction l with
  | nil => rfl
  | cons a rest ih =>
    simp only [List.map_cons, concatStrings, replaceAllChar_append, ih]

theorem replaceAllChar_singleton_ne (ch c : Char) (r : String) (h : ch ≠ c) :
    replaceAllChar (String.singleton ch) c r = String.singleton ch := by
  simp [replaceAllChar, String.singleton, h, concatStrings, String.append_empty]

theorem replaceAllChar_as_concat (v : String) (c : Char) (r : String) :
    replaceAllChar v c r =
      concatStrings (v.data.map (fun ch => if ch = c then r else String.singleton ch)) := rfl

theorem escapeEnvValue_eq_concat_escChar (v : String) :
    escapeEnvValue v = concatStrings (v.data.map escChar) := by
  rw [escapeEnvValue, replaceAllChar_as_concat v backslashChar "\\\\"]
  rw [replaceAllChar_concat_map, replaceAllChar_concat_map, replaceAllChar_concat_map]
  congr 1
  apply List.map_congr_left
  intro ch _
  by_cases h1 : ch = backslashChar
  · subst h1
    decide
  · by_cases h2 : ch = '"'
    · subst h2
      decide
    · by_cases h3 : ch = '\n'
      · subst h3
        decide
      · by_cases h4 : ch = '$'
        · subst h4
          decide
        · rw [if_neg h1, replaceAllChar_singleton_ne ch '"' "\\\"" h2,
              replaceAllChar_singleton_ne ch '\n' "\\n" h3,
              replaceAllChar_singleton_ne ch '$' "\\$" h4,
              escChar, if_neg h1, if_neg h2, if_neg h3, if_neg h4]

/-! ## Helper lemma on Object.fromEntries -/

theorem mapGet_foldl_mapSet (l : List (String × String)) (acc : WireObject) (k : String) :
    mapGet (l.foldl (fun a kv => mapSet a kv.1 kv.2) acc) k =
      match lastOccurrence l k with
      | some v => some v
      | Option.none => mapGet acc k := by
  induction l generalizing acc with
  | nil => simp [lastOccurrence]
  | cons kv rest ih =>
    simp only [List.foldl_cons, ih, lastOccurrence]
    cases hrest : lastOccurrence rest k with
    | some v => simp
    | none =>
      by_cases hk : kv.1 = k
      · simp [hk, mapGet_mapSet]
      · have hk' : ¬ kv.1 = k := hk
        simp [hk', mapGet_mapSet]

/-! ## Claim theorems -/

/-- C7: the request pipeline resolves an ok 204 to no value, any other ok
status to the parsed body, raises a typed error with the response status
and the error-body message (or the status text when the body does not
parse as JSON) on a non-ok status, raises status 408 on a client-side
timeout, and status 0 with the underlying message on any other transport
failure. -/
theorem request_pipeline_normalization {β : Type} (r : HttpResponse β)
    (e : ApiError) (msg : String) :
    (r.ok = true → r.status = 204 →
      request (FetchOutcome.response r) = .ok Option.none)
  ∧ (r.ok = true → r.status ≠ 204 →
      request (FetchOutcome.response r) = .ok (some r.body))
  ∧ (r.ok = false → r.jsonAsError = some e →
      request (FetchOutcome.response r) =
        .error ⟨e.error, r.status, e.code, e.details⟩)
  ∧ (r.ok = false → r.jsonAsError = Option.none →
      request (FetchOutcome.response r) =
        .error ⟨r.statusText, r.status, Option.none, Option.none⟩)
  ∧ request (FetchOutcome.abort : FetchOutcome β) =
      .error ⟨"Request timeout", 408, Option.none, Option.none⟩
  ∧ request (FetchOutcome.failure msg : FetchOutcome β) =
      .error ⟨msg, 0, Option.none, Option.none⟩ := by
  refine ⟨?_, ?_, ?_, ?_, rfl, rfl⟩
  · intro hok h204
    simp [request, hok, h204]
  · intro hok h204
    simp [request, hok, h204]
  · intro hok herr
    simp [request, hok, herr]
  · intro hok herr
    simp [request, hok, herr]

/-- Witness for C7 at concrete inputs: a 204 response, a parsed 401 error
body, an unparsable 502 body, and the two transport failures. -/
theorem request_pipeline_normalization_witness :
    request (FetchOutcome.response
      { ok := true, status := 204, statusText := "No Content",
        jsonAsError := Option.none, body := (0 : Nat) }) = .ok Option.none
  ∧ request (FetchOutcome.response
      { ok := false, status := 401, statusText := "Unauthorized",
        jsonAsError := some ⟨"Invalid token", Option.none, Option.none⟩,
        body := (0 : Nat) }) =
      .error ⟨"Invalid token", 401, Option.none, Option.none⟩
  ∧ request (FetchOutcome.response
      { ok := false, status := 502, statusText := "Bad Gateway",
        jsonAsError := Option.none, body := (0 : Nat) }) =
      .error ⟨"Bad Gateway", 502, Option.none, Option.none⟩
  ∧ request (FetchOutcome.abort : FetchOutcome Nat) =
      .error ⟨"Request timeout", 408, Option.none, Option.none⟩ := by
  refine ⟨?_, ?_, ?_, ?_⟩
  · exact (request_pipeline_normalization
      { ok := true, status := 204, statusText := "No Content",
        jsonAsError := Option.none, body := (0 : Nat) }
      ⟨"", Option.none, Option.none⟩ "").1 rfl rfl
  · exact (request_pipeline_normalization
      { ok := false, status := 401, statusText := "Unauthorized",
        jsonAsError := some ⟨"Invalid token", Option.none, Option.none⟩,
        body := (0 : Nat) }
      ⟨"Invalid token", Option.none, Option.none⟩ "").2.2.1 rfl rfl
  · exact (request_pipeline_normalization
      { ok := false, status := 502, statusText := "Bad Gateway",
        jsonAsError := Option.none, body := (0 : Nat) }
      ⟨"", Option.none, Option.none⟩ "").2.2.2.1 rfl rfl
  · exact (request_pipeline_normalization
      { ok := true, status := 0, statusText := "", jsonAsError := Option.none,
        body := (0 : Nat) }
      ⟨"", Option.none, Option.none⟩ "").2.2.2.2.1

/-- C9: exportSecretsAsObject binds every key of the export list to its
value, the last occurrence in list order winning on duplicate keys; a key
absent from the list is absent from the object. -/
theorem exportSecretsAsObject_last_wins (secrets : List SecretWithValue) (k : String) :
    mapGet (exportSecretsAsObject secrets) k =
      lastOccurrence (secrets.map (fun s => (s.key, s.value))) k := by
  rw [exportSecretsAsObject, objectFromEntries, mapGet_foldl_mapSet]
  cases lastOccurrence (secrets.map (fun s => (s.key, s.value))) k <;> simp [mapGet]

/-- C4: setSecret performs the create attempt if and only if the update
attempt fails with status 404; a successful update is one network call, a
404 update failure is followed by the create for two calls in total, and
any other update failure propagates immediately after one call. -/
theorem setSecret_upsert (st : ClientState) (p e : String)
    (updateOutcome createOutcome : Except KeyEnvError Secret) :
    (∀ s, updateOutcome = .ok s →
      setSecret st p e updateOutcome createOutcome =
        (.ok s, { st with secretsCache := clearCacheImpl st.secretsCache (some p) (some e) }, 1))
  ∧ (∀ err, updateOutcome = .error err → err.status = 404 →
      setSecret st p e updateOutcome createOutcome =
        ((createSecret st p e createOutcome).1, (createSecret st p e createOutcome).2, 2))
  ∧ (∀ err, updateOutcome = .error err → err.status ≠ 404 →
      setSecret st p e updateOutcome createOutcome = (.error err, st, 1)) := by
  refine ⟨?_, ?_, ?_⟩
  · intro s h
    subst h
    simp [setSecret, updateSecret]
  · intro err h h404
    subst h
    simp [setSecret, updateSecret, h404]
  · intro err h h404
    subst h
    simp [setSecret, updateSecret, h404]

/-- Witness for C4: on an empty-cache client, a 404 update failure leads to
the create result with two network calls, and a non-404 failure propagates
after one call. -/
theorem setSecret_upsert_witness :
    setSecret ⟨0, []⟩ "proj" "dev"
        (.error ⟨"Not found", 404, Option.none, Option.none⟩)
        (.ok ⟨"s1", "env1", "K", "string", Option.none, 1, "", ""⟩) =
      ((createSecret ⟨0, []⟩ "proj" "dev"
          (.ok ⟨"s1", "env1", "K", "string", Option.none, 1, "", ""⟩)).1,
       (createSecret ⟨0, []⟩ "proj" "dev"
          (.ok ⟨"s1", "env1", "K", "string", Option.none, 1, "", ""⟩)).2, 2)
  ∧ setSecret ⟨0, []⟩ "proj" "dev"
        (.error ⟨"Forbidden", 403, Option.none, Option.none⟩)
        (.ok ⟨"s1", "env1", "K", "string", Option.none, 1, "", ""⟩) =
      (.error ⟨"Forbidden", 403, Option.none, Option.none⟩, ⟨0, []⟩, 1) := by
  refine ⟨?_, ?_⟩
  · exact (setSecret_upsert ⟨0, []⟩ "proj" "dev"
      (.error ⟨"Not found", 404, Option.none, Option.none⟩)
      (.ok ⟨"s1", "env1", "K", "string", Option.none, 1, "", ""⟩)).2.1
      ⟨"Not found", 404, Option.none, Option.none⟩ rfl rfl
  · exact (setSecret_upsert ⟨0, []⟩ "proj" "dev"
      (.error ⟨"Forbidden", 403, Option.none, Option.none⟩)
      (.ok ⟨"s1", "env1", "K", "string", Option.none, 1, "", ""⟩)).2.2
      ⟨"Forbidden", 403, Option.none, Option.none⟩ rfl (by decide)

/-- C8: bulkSetPermissions serializes each caller item to user_id and role
and setProjectDefaults serializes each caller item to environment_name and
default_role; no camelCase field name appears in either body. -/
theorem wire_serialization_snake_case (permissions : List PermissionInput)
    (defaults : List ProjectDefaultInput) :
    bulkSetPermissionsBodyItems permissions =
      permissions.map (fun q => [("user_id", q.userId), ("role", roleToWire q.role)])
  ∧ setProjectDefaultsBodyItems defaults =
      defaults.map (fun d =>
        [("environment_name", d.environmentName), ("default_role", roleToWire d.defaultRole)])
  ∧ (∀ item ∈ bulkSetPermissionsBodyItems permissions, ∀ f ∈ item,
       (f.1 = "user_id" ∨ f.1 = "role") ∧ f.1 ≠ "userId")
  ∧ (∀ item ∈ setProjectDefaultsBodyItems defaults, ∀ f ∈ item,
       (f.1 = "environment_name" ∨ f.1 = "default_role") ∧
         f.1 ≠ "environmentName" ∧ f.1 ≠ "defaultRole") := by
  refine ⟨rfl, rfl, ?_, ?_⟩
  · intro item hitem f hf
    rw [bulkSetPermissionsBodyItems, List.mem_map] at hitem
    obtain ⟨q, _, hq⟩ := hitem
    subst hq
    rcases List.mem_cons.mp hf with hf1 | hf1
    · subst hf1
      exact ⟨Or.inl rfl, by show ("user_id" : String) ≠ "userId"; decide⟩
    · rcases List.mem_cons.mp hf1 with hf2 | hf2
      · subst hf2
        exact ⟨Or.inr rfl, by show ("role" : String) ≠ "userId"; decide⟩
      · exact absurd hf2 (List.not_mem_nil f)
  · intro item hitem f hf
    rw [setProjectDefaultsBodyItems, List.mem_map] at hitem
    obtain ⟨d, _, hd⟩ := hitem
    subst hd
    rcases List.mem_cons.mp hf with hf1 | hf1
    · subst hf1
      refine ⟨Or.inl rfl, ?_, ?_⟩
      · show ("environment_name" : String) ≠ "environmentName"
        decide
      · show ("environment_name" : String) ≠ "defaultRole"
        decide
    · rcases List.mem_cons.mp hf1 with hf2 | hf2
      · subst hf2
        refine ⟨Or.inr rfl, ?_, ?_⟩
        · show ("default_role" : String) ≠ "environmentName"
          decide
        · show ("default_role" : String) ≠ "defaultRole"
          decide
      · exact absurd hf2 (List.not_mem_nil f)

/-- Witness for C8 at a one-element body each. -/
theorem wire_serialization_snake_case_witness :
    (("user_id", "u1") : String × String).1 = "user_id" ∨
        (("user_id", "u1") : String × String).1 = "role" := by
  have h := (wire_serialization_snake_case [⟨"u1", EnvironmentRole.write⟩]
    [⟨"dev", EnvironmentRole.read⟩]).2.2.1
    [("user_id", "u1"), ("role", "write")] (by decide) ("user_id", "u1") (by decide)
  exact h.1

/-- Counterexample to C1 as stated: on a response body carrying both a
secrets field and a data field, exportSecrets returns the data field, not
the secrets field, and getSecretHistory returns the data field, not the
history field. -/
theorem envelope_claim_counterexample :
    exportSecretsEnvelope
        [("secrets", [({ id := "s1", environment_id := "env1", key := "K",
                         type := "string", description := Option.none, version := 1,
                         created_at := "", updated_at := "", value := "v",
                         inherited_from := Option.none } : SecretWithValue)]),
         ("data", [])] = some []
  ∧ mapGet
        [("secrets", [({ id := "s1", environment_id := "env1", key := "K",
                         type := "string", description := Option.none, version := 1,
                         created_at := "", updated_at := "", value := "v",
                         inherited_from := Option.none } : SecretWithValue)]),
         ("data", [])] "secrets" ≠ some []
  ∧ getSecretHistoryEnvelope [("history", [(1 : Nat)]), ("data", [2])] = some [2]
  ∧ mapGet [("history", [(1 : Nat)]), ("data", [2])] "history" = some [1] := by
  refine ⟨by decide, by decide, by decide, by decide⟩

/-- C1 amended: exportSecrets and getSecretHistory unwrap the generic data
field of the response envelope, while getMyPermissions returns the
top-level object carrying permissions and is_team_admin unchanged. -/
theorem envelope_unwrap_data {α β : Type} (body : List (String × α)) (v : α) (b : β) :
    (mapGet body "data" = some v →
      exportSecretsEnvelope body = some v ∧ getSecretHistoryEnvelope body = some v)
  ∧ getMyPermissionsEnvelope b = b :=
  ⟨fun h => ⟨h, h⟩, rfl⟩

/-- Witness for the amended C1 at a concrete body. -/
theorem envelope_unwrap_data_witness :
    exportSecretsEnvelope [("data", (5 : Nat))] = some 5
  ∧ getSecretHistoryEnvelope [("data", (5 : Nat))] = some 5 :=
  (envelope_unwrap_data [("data", (5 : Nat))] 5 ()).1 (by decide)

/-- Counterexample to C5 as stated: the distinct pairs (a:b, c) and
(a, b:c) produce the same cache key, so an entry stored for the first pair
is served for the second. -/
theorem cacheKey_collision_counterexample :
    (("a:b", "c") : String × String) ≠ ("a", "b:c")
  ∧ getCacheKey "a:b" "c" = getCacheKey "a" "b:c"
  ∧ mapGet (mapSet ([] : Cache) (getCacheKey "a:b" "c") ⟨[], 0⟩)
      (getCacheKey "a" "b:c") = some ⟨[], 0⟩ := by
  refine ⟨by decide, by decide, by decide⟩

/-- C5 amended: cache keys are the joined string projectId, colon,
environment, so distinct pairs whose project identifiers are free of
colons never share an entry; clearCache with two non-empty arguments
removes exactly the joined key's entry, with one non-empty project
identifier exactly the entries whose key starts with the project id and a
colon, and with no arguments all entries. -/
theorem clearCache_characterization (cache : Cache) (p e p1 e1 p2 e2 k : String) :
    (':' ∉ p1.data → ':' ∉ p2.data → (p1, e1) ≠ (p2, e2) →
      getCacheKey p1 e1 ≠ getCacheKey p2 e2)
  ∧ (p ≠ "" → e ≠ "" → mapGet (clearCacheImpl cache (some p) (some e)) k =
      if getCacheKey p e = k then Option.none else mapGet cache k)
  ∧ (p ≠ "" → mapGet (clearCacheImpl cache (some p) Option.none) k =
      if strStartsWith k (p ++ ":") then Option.none else mapGet cache k)
  ∧ clearCacheImpl cache Option.none Option.none = [] :=
  ⟨getCacheKey_inj p1 e1 p2 e2,
   clearCacheImpl_both cache p e k,
   clearCacheImpl_project cache p k,
   clearCacheImpl_all cache⟩

/-- Witness for the amended C5 at concrete strings and a one-entry cache. -/
theorem clearCache_characterization_witness :
    getCacheKey "a" "x" ≠ getCacheKey "b" "x"
  ∧ mapGet (clearCacheImpl [("a:x", ⟨[], 7⟩)] (some "a") (some "x")) "a:x" =
      (if getCacheKey "a" "x" = "a:x" then Option.none else mapGet [("a:x", ⟨[], 7⟩)] "a:x")
  ∧ mapGet (clearCacheImpl [("a:x", ⟨[], 7⟩)] (some "a") Option.none) "a:x" =
      (if strStartsWith "a:x" ("a" ++ ":") then Option.none else mapGet [("a:x", ⟨[], 7⟩)] "a:x") := by
  refine ⟨?_, ?_, ?_⟩
  · exact (clearCache_characterization [] "p" "e" "a" "x" "b" "x" "k").1
      (by decide) (by decide) (by decide)
  · exact (clearCache_characterization [("a:x", ⟨[], 7⟩)] "a" "x" "" "" "" "" "a:x").2.1
      (by decide) (by decide)
  · exact (clearCache_characterization [("a:x", ⟨[], 7⟩)] "a" "x" "" "" "" "" "a:x").2.2.1
      (by decide)

/-- C6: a secret line is emitted unquoted exactly when the value contains
none of space, double quote, single quote, newline or dollar; otherwise it
is emitted quoted with the escape that doubles backslashes and escapes
double quotes, newlines and dollars; and the document ends with a trailing
newline. -/
theorem generateEnvFile_quoting (env ts : String) (secrets : List SecretWithValue)
    (s : SecretWithValue) :
    needsQuoting s.value =
      s.value.data.any (fun c => c = ' ' || c = '"' || c = squoteChar || c = '\n' || c = '$')
  ∧ (needsQuoting s.value = false → envFileLine s = s.key ++ "=" ++ s.value)
  ∧ (needsQuoting s.value = true →
      envFileLine s = s.key ++ "=\"" ++ escapeEnvValue s.value ++ "\"")
  ∧ escapeEnvValue s.value = concatStrings (s.value.data.map escChar)
  ∧ ∃ d, generateEnvFile env ts secrets = d ++ "\n" := by
  refine ⟨?_, ?_, ?_, escapeEnvValue_eq_concat_escChar s.value, ⟨_, rfl⟩⟩
  · rw [needsQuoting]
    have hfg : (fun c : Char => (c = '\n' || c = '"' || c = squoteChar || c = ' ' || c = '$' : Bool)) =
        (fun c : Char => (c = ' ' || c = '"' || c = squoteChar || c = '\n' || c = '$' : Bool)) := by
      funext c
      by_cases h1 : c = '\n' <;> by_cases h2 : c = '"' <;> by_cases h3 : c = squoteChar <;>
        by_cases h4 : c = ' ' <;> by_cases h5 : c = '$' <;> simp [h1, h2, h3, h4, h5]
    rw [hfg]
  · intro h
    simp [envFileLine, h]
  · intro h
    simp [envFileLine, h]

/-- Witness for C6: the test values of the repository render as claimed
and a concrete document ends with a newline. -/
theorem generateEnvFile_quoting_witness :
    envFileLine { id := "s1", environment_id := "e", key := "SIMPLE", type := "string",
                  description := Option.none, version := 1, created_at := "",
                  updated_at := "", value := "no_special", inherited_from := Option.none } =
      "SIMPLE" ++ "=" ++ "no_special"
  ∧ envFileLine { id := "s2", environment_id := "e", key := "DOLLAR", type := "string",
                  description := Option.none, version := 1, created_at := "",
                  updated_at := "", value := "price=$100", inherited_from := Option.none } =
      "DOLLAR" ++ "=\"" ++ escapeEnvValue "price=$100" ++ "\"" := by
  refine ⟨?_, ?_⟩
  · exact (generateEnvFile_quoting "production" "t" []
      { id := "s1", environment_id := "e", key := "SIMPLE", type := "string",
        description := Option.none, version := 1, created_at := "",
        updated_at := "", value := "no_special", inherited_from := Option.none }).2.1
      (by decide)
  · exact (generateEnvFile_quoting "production" "t" []
      { id := "s2", environment_id := "e", key := "DOLLAR", type := "string",
        description := Option.none, version := 1, created_at := "",
        updated_at := "", value := "price=$100", inherited_from := Option.none }).2.2.1
      (by decide)

/-- C2: with cacheTtl positive, exportSecrets answers from the cache
without a network call exactly when an entry with a strictly future expiry
exists; a fresh entry is returned as stored; an expired entry is removed
and the fetch proceeds; a successful fetch is stored with expiry equal to
the fetch time plus cacheTtl seconds; with cacheTtl non-positive every
call uses the network and the state is unchanged. -/
theorem exportSecrets_cache_behavior (st : ClientState) (p e : String) (tC tS : Int)
    (fetch : Except KeyEnvError (List SecretWithValue)) :
    (st.cacheTtl > 0 →
      ((exportSecrets st p e tC tS fetch).networkUsed = false ↔
        ∃ entry, mapGet st.secretsCache (getCacheKey p e) = some entry ∧
          tC < entry.expiresAt))
  ∧ (∀ entry, st.cacheTtl > 0 →
      mapGet st.secretsCache (getCacheKey p e) = some entry →
      tC < entry.expiresAt →
      exportSecrets st p e tC tS fetch = ⟨.ok entry.secrets, st, false⟩)
  ∧ (∀ entry err, st.cacheTtl > 0 →
      mapGet st.secretsCache (getCacheKey p e) = some entry →
      ¬ tC < entry.expiresAt → fetch = .error err →
      exportSecrets st p e tC tS fetch =
        ⟨.error err, { st with secretsCache := mapDelete st.secretsCache (getCacheKey p e) }, true⟩)
  ∧ (∀ data, st.cacheTtl > 0 → fetch = .ok data →
      (exportSecrets st p e tC tS fetch).networkUsed = true →
      mapGet (exportSecrets st p e tC tS fetch).state.secretsCache (getCacheKey p e) =
        some ⟨data, tS + st.cacheTtl * 1000⟩)
  ∧ (st.cacheTtl ≤ 0 → exportSecrets st p e tC tS fetch = ⟨fetch, st, true⟩) := by
  refine ⟨?_, ?_, ?_, ?_, ?_⟩
  · intro httl
    constructor
    · intro hnet
      rcases hget : mapGet st.secretsCache (getCacheKey p e) with _ | entry
      · exfalso
        cases fetch with
        | error err =>
          rw [exportSecrets_nokey_error st p e tC tS err httl hget] at hnet
          simp at hnet
        | ok data =>
          rw [exportSecrets_nokey_ok st p e tC tS data httl hget] at hnet
          simp at hnet
      · by_cases hfresh : tC < entry.expiresAt
        · exact ⟨entry, rfl, hfresh⟩
        · exfalso
          cases fetch with
          | error err =>
            rw [exportSecrets_expired_error st p e tC tS err entry httl hget hfresh] at hnet
            simp at hnet
          | ok data =>
            rw [exportSecrets_expired_ok st p e tC tS data entry httl hget hfresh] at hnet
            simp at hnet
    · rintro ⟨entry, hget, hfresh⟩
      rw [exportSecrets_hit st p e tC tS fetch entry httl hget hfresh]
  · intro entry httl hget hfresh
    exact exportSecrets_hit st p e tC tS fetch entry httl hget hfresh
  · intro entry err httl hget hstale hf
    subst hf
    exact exportSecrets_expired_error st p e tC tS err entry httl hget hstale
  · intro data httl hf _hnet
    subst hf
    rcases hget : mapGet st.secretsCache (getCacheKey p e) with _ | entry
    · rw [exportSecrets_nokey_ok st p e tC tS data httl hget]
      simp [mapGet_mapSet]
    · by_cases hfresh : tC < entry.expiresAt
      · rw [exportSecrets_hit st p e tC tS (.ok data) entry httl hget hfresh] at _hnet
        simp at _hnet
      · rw [exportSecrets_expired_ok st p e tC tS data entry httl hget hfresh]
        simp [mapGet_mapSet]
  · intro hle
    exact exportSecrets_noTtl st p e tC tS fetch (not_lt.mpr hle)

/-- Witness for C2: a fresh entry is served without the network, and with
the default TTL of zero the same call uses the network and stores
nothing. -/
theorem exportSecrets_cache_behavior_witness :
    exportSecrets ⟨300, [("proj:prod", ⟨[], 1000⟩)]⟩ "proj" "prod" 5 6 (.ok []) =
      ⟨.ok [], ⟨300, [("proj:prod", ⟨[], 1000⟩)]⟩, false⟩
  ∧ exportSecrets ⟨0, []⟩ "proj" "prod" 5 6 (.ok []) = ⟨.ok [], ⟨0, []⟩, true⟩ := by
  refine ⟨?_, ?_⟩
  · exact (exportSecrets_cache_behavior ⟨300, [("proj:prod", ⟨[], 1000⟩)]⟩
      "proj" "prod" 5 6 (.ok [])).2.1 ⟨[], 1000⟩ (by decide) (by decide) (by decide)
  · exact (exportSecrets_cache_behavior ⟨0, []⟩ "proj" "prod" 5 6
      (.ok [])).2.2.2.2 (by decide)

/-- C3: createSecret, updateSecret, deleteSecret and bulkImport remove the
pair's export-cache entry exactly when the underlying request succeeds,
whatever the TTL; a failed request propagates the typed error with the
cache untouched. -/
theorem mutations_invalidate_pair (st : ClientState) (p e : String)
    (co uo : Except KeyEnvError Secret) (delo : Except KeyEnvError Unit)
    (bo : Except KeyEnvError BulkImportResult) :
    (∀ s, co = .ok s → (createSecret st p e co).1 = .ok s ∧
      mapGet (createSecret st p e co).2.secretsCache (getCacheKey p e) = Option.none)
  ∧ (∀ s, uo = .ok s → (updateSecret st p e uo).1 = .ok s ∧
      mapGet (updateSecret st p e uo).2.secretsCache (getCacheKey p e) = Option.none)
  ∧ (delo = .ok () → (deleteSecret st p e delo).1 = .ok () ∧
      mapGet (deleteSecret st p e delo).2.secretsCache (getCacheKey p e) = Option.none)
  ∧ (∀ r, bo = .ok r → (bulkImport st p e bo).1 = .ok r ∧
      mapGet (bulkImport st p e bo).2.secretsCache (getCacheKey p e) = Option.none)
  ∧ (∀ err, co = .error err → createSecret st p e co = (.error err, st))
  ∧ (∀ err, uo = .error err → updateSecret st p e uo = (.error err, st))
  ∧ (∀ err, delo = .error err → deleteSecret st p e delo = (.error err, st))
  ∧ (∀ err, bo = .error err → bulkImport st p e bo = (.error err, st)) := by
  refine ⟨?_, ?_, ?_, ?_, ?_, ?_, ?_, ?_⟩
  · intro s h
    subst h
    exact ⟨rfl, clearCacheImpl_pair_none st.secretsCache p e⟩
  · intro s h
    subst h
    exact ⟨rfl, clearCacheImpl_pair_none st.secretsCache p e⟩
  · intro h
    subst h
    exact ⟨rfl, clearCacheImpl_pair_none st.secretsCache p e⟩
  · intro r h
    subst h
    exact ⟨rfl, clearCacheImpl_pair_none st.secretsCache p e⟩
  · intro err h
    subst h
    rfl
  · intro err h
    subst h
    rfl
  · intro err h
    subst h
    rfl
  · intro err h
    subst h
    rfl

/-- Witness for C3: on a client holding the pair's entry, a successful
createSecret removes it and a failed deleteSecret leaves the state
untouched. -/
theorem mutations_invalidate_pair_witness :
    mapGet (createSecret ⟨300, [("proj:prod", ⟨[], 1000⟩)]⟩ "proj" "prod"
        (.ok ⟨"s1", "env1", "K", "string", Option.none, 1, "", ""⟩)).2.secretsCache
      (getCacheKey "proj" "prod") = Option.none
  ∧ deleteSecret ⟨300, [("proj:prod", ⟨[], 1000⟩)]⟩ "proj" "prod"
        (.error ⟨"Forbidden", 403, Option.none, Option.none⟩) =
      (.error ⟨"Forbidden", 403, Option.none, Option.none⟩,
       ⟨300, [("proj:prod", ⟨[], 1000⟩)]⟩) := by
  refine ⟨?_, ?_⟩
  · exact ((mutations_invalidate_pair ⟨300, [("proj:prod", ⟨[], 1000⟩)]⟩ "proj" "prod"
      (.ok ⟨"s1", "env1", "K", "string", Option.none, 1, "", ""⟩)
      (.error ⟨"", 0, Option.none, Option.none⟩)
      (.error ⟨"", 0, Option.none, Option.none⟩)
      (.error ⟨"", 0, Option.none, Option.none⟩)).1
      ⟨"s1", "env1", "K", "string", Option.none, 1, "", ""⟩ rfl).2
  · exact (mutations_invalidate_pair ⟨300, [("proj:prod", ⟨[], 1000⟩)]⟩ "proj" "prod"
      (.error ⟨"", 0, Option.none, Option.none⟩)
      (.error ⟨"", 0, Option.none, Option.none⟩)
      (.error ⟨"Forbidden", 403, Option.none, Option.none⟩)
      (.error ⟨"", 0, Option.none, Option.none⟩)).2.2.2.2.2.2.1
      ⟨"Forbidden", 403, Option.none, Option.none⟩ rfl

/-- C10: deleteProject, deleteEnvironment, setPermission, deletePermission,
bulkSetPermissions and setProjectDefaults leave the client state, hence
every cache entry, unchanged, and an unexpired entry is still served
without a network call by a subsequent exportSecrets. -/
theorem permission_ops_frame (st : ClientState) (p e p2 e2 uid : String)
    (role : EnvironmentRole) (perms : List PermissionInput)
    (defaults : List ProjectDefaultInput)
    (u1 u2 u3 : Except KeyEnvError Unit)
    (po : Except KeyEnvError EnvironmentPermission)
    (bo : Except KeyEnvError (List EnvironmentPermission))
    (dfo : Except KeyEnvError (List ProjectDefault))
    (entry : CacheEntry) (tC tS : Int)
    (fetch : Except KeyEnvError (List SecretWithValue)) :
    (deleteProject st p u1).2 = st
  ∧ (deleteEnvironment st p e u2).2 = st
  ∧ (setPermission st p e uid role po).2 = st
  ∧ (deletePermission st p e uid u3).2 = st
  ∧ (bulkSetPermissions st p e perms bo).2 = st
  ∧ (setProjectDefaults st p defaults dfo).2 = st
  ∧ (st.cacheTtl > 0 → mapGet st.secretsCache (getCacheKey p2 e2) = some entry →
      tC < entry.expiresAt →
      exportSecrets (deleteProject st p u1).2 p2 e2 tC tS fetch =
        ⟨.ok entry.secrets, st, false⟩) := by
  refine ⟨rfl, rfl, rfl, rfl, rfl, rfl, ?_⟩
  intro httl hget hfresh
  exact exportSecrets_hit st p2 e2 tC tS fetch entry httl hget hfresh

/-- Witness for C10: after deleting the very project that owns a fresh
cache entry, exportSecrets still serves the entry without the network. -/
theorem permission_ops_frame_witness :
    exportSecrets (deleteProject ⟨300, [("proj:prod", ⟨[], 1000⟩)]⟩ "proj" (.ok ())).2
        "proj" "prod" 5 6 (.ok []) =
      ⟨.ok [], ⟨300, [("proj:prod", ⟨[], 1000⟩)]⟩, false⟩ :=
  (permission_ops_frame ⟨300, [("proj:prod", ⟨[], 1000⟩)]⟩ "proj" "prod" "proj" "prod"
    "u1" EnvironmentRole.read [] [] (.ok ()) (.ok ()) (.ok ())
    (.error ⟨"", 0, Option.none, Option.none⟩)
    (.error ⟨"", 0, Option.none, Option.none⟩)
    (.error ⟨"", 0, Option.none, Option.none⟩)
    ⟨[], 1000⟩ 5 6 (.ok [])).2.2.2.2.2.2
    (by decide) (by decide) (by decide)
